import Mathlib

/-!
Verification of the `smartprint` automated vendor print client
(`src/smartprint/vendor_client.py`) against its natural-language
specification.  The Python data structures and the operations the claims
are about are shallowly embedded below; the linked-list queue is embedded
as the list of its nodes together with the explicit `size` counter the
code maintains, imperative methods become state-passing functions, and
the effectful parts (WebSocket sends, HTTP POSTs, file system, Win32
printer probes) are made explicit as parameters and returned effect
lists.
-/

namespace SmartPrint

/-! ## Python string helpers

`'HP' in x.upper()`, `x.upper()`, and the tuple-key sort
`hp_printers.sort(key=lambda x: ('Copy' in x, x))` used by
`find_working_printer` are embedded executably. -/

/-- Does the pattern (first argument) occur at the head of the second list? -/
def subAt : List Char → List Char → Bool
  | [], _ => true
  | _ :: _, [] => false
  | p :: ps, h :: hs => p == h && subAt ps hs

/-- Does the pattern occur anywhere in the haystack?  Embeds Python's
`pat in hay` on strings (as character lists). -/
def hasSub (pat : List Char) : List Char → Bool
  | [] => pat.isEmpty
  | c :: rest => subAt pat (c :: rest) || hasSub pat rest

/-- Python `pat in s` substring test. -/
def strHasSub (s pat : String) : Bool := hasSub pat.toList s.toList

/-- Python `s.upper()` (ASCII, which is all the printer names use),
character by character. -/
def upperStr (s : String) : String := String.mk (s.data.map Char.toUpper)

/-- Lexicographic `≤` on character lists by code point, Python's string
comparison. -/
def charListLE : List Char → List Char → Bool
  | [], _ => true
  | _ :: _, [] => false
  | a :: as, b :: bs => a < b || (a == b && charListLE as bs)

/-- Python `a <= b` on strings. -/
def pyStrLE (a b : String) : Bool := charListLE a.toList b.toList

/-- The sort key comparison of `find_working_printer`:
`key=lambda x: ('Copy' in x, x)`, with `False < True` on the first
component. -/
def pyKeyLE (a b : String) : Bool :=
  let ca := strHasSub a "Copy"
  let cb := strHasSub b "Copy"
  (!ca && cb) || (ca == cb && pyStrLE a b)

/-- Stable insertion of an element into an already sorted list (new
element goes before the first element it is `≤`-below-or-equal to; this
matches the stability of Python's `list.sort`). -/
def insertByKey (x : String) : List String → List String
  | [] => [x]
  | y :: ys => if pyKeyLE x y then x :: y :: ys else y :: insertByKey x ys

/-- Stable sort by the `('Copy' in x, x)` key, Python's
`hp_printers.sort(key=...)`. -/
def sortByPyKey (l : List String) : List String := l.foldr insertByKey []

/-! ## Python dict / set helpers -/

/-- Python `d.get(k)` on a string-valued dict, embedded as an association
list in insertion order. -/
def dictGet (d : List (String × String)) (k : String) : Option String :=
  d.lookup k

/-- Python dict assignment `d[k] = v`: overwrite in place if the key is
present, append otherwise (dicts preserve insertion order). -/
def dictSet {β : Type} (d : List (String × β)) (k : String) (v : β) :
    List (String × β) :=
  if (d.lookup k).isSome then
    d.map (fun kv => if kv.1 == k then (k, v) else kv)
  else d ++ [(k, v)]

/-- Python `set.add`: membership-preserving insert. -/
def setAdd (s : List String) (x : String) : List String :=
  if x ∈ s then s else s ++ [x]

/-- Python `set.discard`: remove the element if present. -/
def setDiscard (s : List String) (x : String) : List String :=
  s.filter (fun y => y ≠ x)

/-! ## Data model: `PrintJobNode` -/

/-- One print job record (`PrintJobNode` dataclass).  The `next_node`
pointer of the Python linked list is represented by the node's position
in the queue's list; the wall-clock `created_time` is not modelled. -/
structure PrintJobNode where
  filename : String
  download_url : String
  metadata : List (String × String)
  service_type : String
  status : String
  attempts : Nat
  max_attempts : Nat
  assigned_printer : Option String
  deriving DecidableEq, Repr

/-! ## `PrintJobQueue`: the linked-list queue -/

/-- The linked-list queue: the chain of nodes from `head` to `tail`,
plus the explicit `size` counter the class maintains alongside it. -/
structure PrintJobQueue where
  items : List PrintJobNode
  size : Nat
  deriving DecidableEq, Repr

namespace PrintJobQueue

/-- Fresh queue: `head = tail = None`, `size = 0`. -/
def empty : PrintJobQueue := ⟨[], 0⟩

/-- `enqueue`: append the node at the tail, `size += 1`. -/
def enqueue (q : PrintJobQueue) (j : PrintJobNode) : PrintJobQueue :=
  ⟨q.items ++ [j], q.size + 1⟩

/-- `dequeue`: remove and return the head node, or `None` when empty;
`size -= 1` when a node is removed. -/
def dequeue (q : PrintJobQueue) : Option PrintJobNode × PrintJobQueue :=
  match q.items with
  | [] => (none, q)
  | j :: rest => (some j, ⟨rest, q.size - 1⟩)

/-- `peek`: return the head node without removing it. -/
def peek (q : PrintJobQueue) : Option PrintJobNode := q.items.head?

/-- Helper for `remove_by_filename`: remove the first node carrying the
filename from the node chain, reporting whether one was found. -/
def removeFromList : List PrintJobNode → String → List PrintJobNode × Bool
  | [], _ => ([], false)
  | j :: rest, fn =>
    if j.filename = fn then (rest, true)
    else (j :: (removeFromList rest fn).1, (removeFromList rest fn).2)

/-- `remove_by_filename`: unlink the first matching node (decrementing
`size`) and return `True`, or leave the queue unchanged and return
`False`. -/
def remove_by_filename (q : PrintJobQueue) (fn : String) :
    PrintJobQueue × Bool :=
  if (removeFromList q.items fn).2 then
    (⟨(removeFromList q.items fn).1, q.size - 1⟩, true)
  else (q, false)

/-- `is_empty`: the class tests the `size` counter, not the pointers. -/
def is_empty (q : PrintJobQueue) : Bool := q.size == 0

/-- `get_size`: return the `size` counter. -/
def get_size (q : PrintJobQueue) : Nat := q.size

/-- Well-formedness: the `size` counter agrees with the node chain.  It
holds for every queue reachable from `empty` by the public operations
(proved below). -/
def Wf (q : PrintJobQueue) : Prop := q.size = q.items.length

end PrintJobQueue

/-- The operations a client can perform on one `PrintJobQueue`. -/
inductive QueueOp where
  | enq (j : PrintJobNode)
  | deq
  | rm (fn : String)
  deriving Repr

/-- Apply one operation to a queue (results of `dequeue` /
`remove_by_filename` are discarded, only the queue state is kept). -/
def applyOp (q : PrintJobQueue) : QueueOp → PrintJobQueue
  | .enq j => q.enqueue j
  | .deq => (q.dequeue).2
  | .rm fn => (q.remove_by_filename fn).1

/-- Run a sequence of operations from the fresh queue. -/
def runOps (ops : List QueueOp) : PrintJobQueue :=
  ops.foldl applyOp PrintJobQueue.empty

/-- Enqueue a list of jobs in order into the fresh queue. -/
def enqueueAll (js : List PrintJobNode) : PrintJobQueue :=
  js.foldl PrintJobQueue.enqueue PrintJobQueue.empty

/-- Dequeue up to `n` jobs, collecting them in order. -/
def dequeueList : Nat → PrintJobQueue → List PrintJobNode
  | 0, _ => []
  | n + 1, q =>
    match q.dequeue with
    | (none, _) => []
    | (some j, q') => j :: dequeueList n q'

/-- Sample job node used by concrete witnesses. -/
def jA : PrintJobNode :=
  { filename := "a.pdf", download_url := "http://x/a.pdf", metadata := []
    service_type := "regular", status := "pending", attempts := 0
    max_attempts := 3, assigned_printer := none }

/-- Second sample job node. -/
def jB : PrintJobNode :=
  { filename := "b.pdf", download_url := "http://x/b.pdf", metadata := []
    service_type := "regular", status := "pending", attempts := 0
    max_attempts := 3, assigned_printer := none }

/-! ## Inbound job descriptors and client state

An inbound descriptor is a JSON object; the fields the client reads with
`job.get(...)` are embedded as `Option`s (absent key = `none`), the
`metadata` object as a string-valued dict. -/

/-- One inbound job descriptor as read by `on_message` /
`handle_new_print_job`. -/
structure JobDescriptor where
  filename : Option String
  download_url : Option String
  metadata : Option (List (String × String))
  service_type : Option String
  deriving DecidableEq, Repr

/-- The `PrintJobNode(...)` construction performed by the ingestion
handlers: descriptor fields with their `get` defaults, dataclass
defaults for the rest. -/
def mkJobNode (job : JobDescriptor) : PrintJobNode :=
  { filename := job.filename.getD "unknown"
    download_url := job.download_url.getD ""
    metadata := job.metadata.getD []
    service_type := job.service_type.getD "unknown"
    status := "pending"
    attempts := 0
    max_attempts := 3
    assigned_printer := none }

/-- The parts of `AutomatedVendorPrintClient`'s state that the verified
operations touch: the two queues, the `processed_jobs` set (embedded as
a duplicate-free-by-construction list), the identity used in outbound
messages, and the two job-metrics counters the handlers update. -/
structure ClientState where
  print_queue : PrintJobQueue
  failed_jobs_queue : PrintJobQueue
  processed_jobs : List String
  vendor_id : String
  total_received : Nat
  total_failed : Nat
  deriving DecidableEq, Repr

/-! ## JobIngester: `handle_new_print_job` / `handle_multiple_print_jobs` -/

/-- `handle_new_print_job`: skip if the filename is in `processed_jobs`,
otherwise build a node and enqueue it on the normal queue.  Note the
code does not add the filename to `processed_jobs` here. -/
def handle_new_print_job (st : ClientState) (job : JobDescriptor) :
    ClientState :=
  let filename := job.filename.getD "unknown"
  if filename ∈ st.processed_jobs then st
  else
    { st with
      print_queue := st.print_queue.enqueue (mkJobNode job)
      total_received := st.total_received + 1 }

/-- The filtering loop of `handle_multiple_print_jobs`: walk the batch
in order, keep a node for each filename not yet in `processed_jobs`, and
add that filename to `processed_jobs` as it is collected. -/
def collectNewJobs :
    List JobDescriptor → List String → List PrintJobNode × List String
  | [], processed => ([], processed)
  | job :: rest, processed =>
    let filename := job.filename.getD "unknown"
    if filename ∈ processed then collectNewJobs rest processed
    else
      (mkJobNode job :: (collectNewJobs rest (setAdd processed filename)).1,
       (collectNewJobs rest (setAdd processed filename)).2)

/-- `handle_multiple_print_jobs`: filter the batch against
`processed_jobs` (marking each new filename handled as it is
collected), then enqueue the net-new nodes in order on the normal
queue. -/
def handle_multiple_print_jobs (st : ClientState)
    (jobs : List JobDescriptor) : ClientState :=
  if (collectNewJobs jobs st.processed_jobs).1 ≠ [] then
    { st with
      processed_jobs := (collectNewJobs jobs st.processed_jobs).2
      print_queue := (collectNewJobs jobs st.processed_jobs).1.foldl
        PrintJobQueue.enqueue st.print_queue
      total_received :=
        st.total_received + (collectNewJobs jobs st.processed_jobs).1.length }
  else { st with processed_jobs := (collectNewJobs jobs st.processed_jobs).2 }

/-! ## `on_message`: inbound message dispatch -/

/-- The decoded JSON of one inbound WebSocket message, with the fields
`on_message` reads (`data.get('type')`, `data.get('job')`,
`data.get('jobs', [])`). -/
structure InboundData where
  type_ : Option String
  job : Option JobDescriptor
  jobs : List JobDescriptor
  deriving DecidableEq, Repr

/-- `on_message`: dispatch on the `type` discriminator.  A `print_job`
is ingested only when `job.get('metadata', {}).get('status') == 'no'`;
a `print_jobs_response` batch is first filtered down to the descriptors
with metadata status `'no'`.  `job_status_updated` and `error` messages
are logged only, leaving the state unchanged. -/
def on_message (st : ClientState) (data : InboundData) : ClientState :=
  if data.type_ = some "print_job" then
    match data.job with
    | some job =>
      if dictGet (job.metadata.getD []) "status" = some "no" then
        handle_new_print_job st job
      else st
    | none => st
  else if data.type_ = some "print_jobs_response" then
    if data.jobs ≠ [] then
      let pending := data.jobs.filter
        (fun job => dictGet (job.metadata.getD []) "status" == some "no")
      if pending ≠ [] then handle_multiple_print_jobs st pending else st
    else st
  else st

/-! ## StatusReporter: notifications and the HTTP confirmation call -/

/-- Outbound WebSocket messages sent by the status reporters. -/
inductive WsMessage where
  | job_completed (filename : String) (vendor_id : String)
  | job_failed (filename : String) (error_message : String) (vendor_id : String)
  deriving DecidableEq, Repr

/-- The JSON payload of the POST to the `/update-job-status/` endpoint:
exactly the four fields the code puts in it. -/
structure StatusPost where
  filename : String
  status : String
  vendor_id : String
  completion_time : Int
  deriving DecidableEq, Repr

/-- Observable log outcome of one `update_r2_job_status` call. -/
inductive R2LogEvent where
  | updated (filename : String) (status : String)
  | httpFailure (filename : String) (code : Nat)
  | requestError
  deriving DecidableEq, Repr

/-- `notify_job_completed`: send `job_completed` over the live channel,
but only when the WebSocket is connected (`self.ws and self.ws.sock`). -/
def notify_job_completed (wsConnected : Bool) (vendor_id filename : String) :
    List WsMessage :=
  if wsConnected then [.job_completed filename vendor_id] else []

/-- `notify_job_failed`: send `job_failed` over the live channel when
connected. -/
def notify_job_failed (wsConnected : Bool)
    (vendor_id filename error_message : String) : List WsMessage :=
  if wsConnected then [.job_failed filename error_message vendor_id] else []

/-- `update_r2_job_status`: one POST with payload
`{filename, status, vendor_id, completion_time}`.  The HTTP outcome is a
parameter: `some code` is the response status, `none` a raised request
exception.  A non-200 outcome is only logged; the call never retries
the POST and never propagates an exception (the whole body is inside
`try/except`). -/
def update_r2_job_status (vendor_id : String) (now : Int)
    (resp : Option Nat) (filename status : String) :
    List StatusPost × List R2LogEvent :=
  ([{ filename := filename, status := status, vendor_id := vendor_id
      completion_time := now }],
   match resp with
   | some code =>
     if code == 200 then [.updated filename status]
     else [.httpFailure filename code]
   | none => [.requestError])

/-! ## Job completion handling -/

/-- Everything `handle_job_completion` does: the mutated job node, the
updated client state, the WebSocket messages sent, the HTTP POSTs
attempted with their log outcome, and the `time.sleep` the handler
performs (the back-pressure pause). -/
structure CompletionResult where
  job : PrintJobNode
  state : ClientState
  wsMessages : List WsMessage
  httpPosts : List StatusPost
  r2Log : List R2LogEvent
  pauseSeconds : Nat
  deriving DecidableEq, Repr

/-- `handle_job_completion`: on success mark the job completed, add its
filename to `processed_jobs`, notify over the live channel and POST the
confirmation.  On failure mark it failed and bump `total_failed`; then,
if `attempts < max_attempts`, enqueue the node on the priority
failed-jobs queue (pausing one second when the failing job was itself a
priority retry), else send `job_failed` and discard the filename from
`processed_jobs`.  Nothing in either branch changes `attempts`. -/
def handle_job_completion (st : ClientState) (job : PrintJobNode)
    (success : Bool) (was_priority : Bool) (wsConnected : Bool)
    (now : Int) (resp : Option Nat) : CompletionResult :=
  if success then
    let job' := { job with status := "completed" }
    let st' := { st with processed_jobs := setAdd st.processed_jobs job.filename }
    let msgs := notify_job_completed wsConnected st.vendor_id job.filename
    let r2 := update_r2_job_status st.vendor_id now resp job.filename "YES"
    { job := job', state := st', wsMessages := msgs, httpPosts := r2.1
      r2Log := r2.2, pauseSeconds := 0 }
  else
    let job' := { job with status := "failed" }
    let st1 := { st with total_failed := st.total_failed + 1 }
    if job.attempts < job.max_attempts then
      { job := job'
        state := { st1 with
          failed_jobs_queue := st1.failed_jobs_queue.enqueue job' }
        wsMessages := [], httpPosts := [], r2Log := []
        pauseSeconds := if was_priority then 1 else 0 }
    else
      { job := job'
        state := { st1 with
          processed_jobs := setDiscard st1.processed_jobs job.filename }
        wsMessages := notify_job_failed wsConnected st1.vendor_id job.filename
          ("Failed after " ++ toString job.max_attempts ++ " attempts")
        httpPosts := [], r2Log := [], pauseSeconds := 0 }

/-! ## PrinterManager and the live printer probe -/

/-- Per-printer bookkeeping stored in `self.printers` (the `added_time`
wall clock is not modelled). -/
structure PrinterInfo where
  jobs_completed : Nat
  jobs_failed : Nat
  deriving DecidableEq, Repr

/-- `PrinterManager`'s dictionaries: registered printers, their status
(`idle` / `busy` / `error`) and their current job. -/
structure PrinterManagerState where
  max_printers : Nat
  printers : List (String × PrinterInfo)
  printer_status : List (String × String)
  printer_jobs : List (String × Option PrintJobNode)
  deriving DecidableEq, Repr

namespace PrinterManager

/-- `add_printer`: register a printer in the idle state, refusing when
the `max_printers` bound is reached. -/
def add_printer (pm : PrinterManagerState) (printer_name : String) :
    PrinterManagerState × Bool :=
  if pm.max_printers ≤ pm.printers.length then (pm, false)
  else
    ({ pm with
        printers := dictSet pm.printers printer_name ⟨0, 0⟩
        printer_status := dictSet pm.printer_status printer_name "idle"
        printer_jobs := dictSet pm.printer_jobs printer_name none }, true)

/-- `set_printer_busy`: mark a known printer busy with a job. -/
def set_printer_busy (pm : PrinterManagerState) (printer_name : String)
    (job : PrintJobNode) : PrinterManagerState :=
  if (pm.printer_status.lookup printer_name).isSome then
    { pm with
      printer_status := dictSet pm.printer_status printer_name "busy"
      printer_jobs := dictSet pm.printer_jobs printer_name (some job) }
  else pm

/-- `set_printer_idle`: mark a known printer idle and clear its job. -/
def set_printer_idle (pm : PrinterManagerState) (printer_name : String) :
    PrinterManagerState :=
  if (pm.printer_status.lookup printer_name).isSome then
    { pm with
      printer_status := dictSet pm.printer_status printer_name "idle"
      printer_jobs := dictSet pm.printer_jobs printer_name none }
  else pm

end PrinterManager

/-- Eligibility of an enumerated printer name for the first loop of
`find_working_printer`: `'HP' in name.upper()`. -/
def isHPName (name : String) : Bool := strHasSub (upperStr name) "HP"

/-- Exclusion test of the second loop: `'PDF' in name.upper()`. -/
def isPDFName (name : String) : Bool := strHasSub (upperStr name) "PDF"

/-- `find_working_printer`: the live Win32 probe.  `printers` is the
device enumeration (`EnumPrinters` names) and `probe name` the outcome
of `OpenPrinter`/`GetPrinter` for it: `some s` is the reported `Status`,
`none` a raised exception (skipped by the `except: continue`).  First
the HP-named printers, sorted with non-`Copy` names first, are tried
for `Status == 0`; then any non-PDF printer in enumeration order. -/
def find_working_printer (printers : List String)
    (probe : String → Option Nat) : Option String :=
  match (sortByPyKey (printers.filter isHPName)).find?
      (fun n => probe n == some 0) with
  | some n => some n
  | none =>
    (printers.filter (fun n => !isPDFName n)).find? (fun n => probe n == some 0)

/-- `get_available_printer`: always delegate to the live probe; if it
names a printer not yet registered, auto-register it; return the probed
name (or `None`) regardless of the registry's own status marks. -/
def get_available_printer (pm : PrinterManagerState)
    (printers : List String) (probe : String → Option Nat) :
    Option String × PrinterManagerState :=
  match find_working_printer printers probe with
  | some fallback =>
    if (pm.printers.lookup fallback).isSome then (some fallback, pm)
    else (some fallback, (PrinterManager.add_printer pm fallback).1)
  | none => (none, pm)

/-! ## Dispatcher: queue processor iteration and single-job dispatch -/

/-- One iteration of the `process_print_queue` loop body: take from the
priority failed-jobs queue when it is non-empty (by its `size` counter),
else from the normal queue; report which job was taken and with which
priority flag. -/
def process_print_queue_step (st : ClientState) :
    Option (PrintJobNode × Bool) × ClientState :=
  if st.failed_jobs_queue.is_empty = false then
    match st.failed_jobs_queue.dequeue with
    | (some j, fq) => (some (j, true), { st with failed_jobs_queue := fq })
    | (none, fq) => (none, { st with failed_jobs_queue := fq })
  else if st.print_queue.is_empty = false then
    match st.print_queue.dequeue with
    | (some j, q) => (some (j, false), { st with print_queue := q })
    | (none, q) => (none, { st with print_queue := q })
  else (none, st)

/-- Result of the synchronous part of `process_single_job_async`: the
updated queues, the updated printer registry, the job as submitted to
the worker pool (with printer assigned and status `processing`), and
the `time.sleep` performed. -/
structure DispatchResult where
  state : ClientState
  pm : PrinterManagerState
  dispatched : Option PrintJobNode
  pauseSeconds : Nat
  deriving DecidableEq, Repr

/-- `process_single_job_async` up to the worker-pool submission: get a
printer from the live probe; when none is available, re-enqueue the job
node unchanged into the queue it came from (priority retry back to the
failed-jobs queue, normal job back to the normal queue) and sleep two
seconds; otherwise assign the printer, mark the node `processing`, mark
the printer busy and hand the node to the pool (whose completion
callback is `handle_job_completion`, modelled separately). -/
def process_single_job_async (st : ClientState) (job : PrintJobNode)
    (priority : Bool) (pm : PrinterManagerState) (printers : List String)
    (probe : String → Option Nat) : DispatchResult :=
  match get_available_printer pm printers probe with
  | (none, pm') =>
    let st' :=
      if priority then
        { st with failed_jobs_queue := st.failed_jobs_queue.enqueue job }
      else { st with print_queue := st.print_queue.enqueue job }
    { state := st', pm := pm', dispatched := none, pauseSeconds := 2 }
  | (some printer_name, pm') =>
    let job' := { job with assigned_printer := some printer_name
                           status := "processing" }
    { state := st
      pm := PrinterManager.set_printer_busy pm' printer_name job'
      dispatched := some job', pauseSeconds := 0 }

/-! ## CheckpointStore: `_check_resume_checkpoint` -/

/-- The checkpoint-relevant slice of the file system for one job id:
whether the `.checkpoint` and `.data` files exist, the checkpoint's
modification time, and the stored contents (the optional JSON fields
read back with `get` defaults, and the raw document bytes). -/
structure CheckpointFileState where
  checkpointExists : Bool
  dataExists : Bool
  checkpointMtime : Int
  printSettings : Option (List (String × String))
  completedCopies : Option Nat
  documentData : List Nat
  deriving DecidableEq, Repr

/-- The resume record `_check_resume_checkpoint` returns. -/
structure ResumeInfo where
  document_data : List Nat
  print_settings : List (String × String)
  completed_copies : Nat
  deriving DecidableEq, Repr

/-- `_check_resume_checkpoint`: return the resume record only when both
files exist and `time.time() - getmtime(checkpoint) < 86400`; in every
case the file system is returned unchanged — a stale checkpoint is
skipped but not deleted. -/
def check_resume_checkpoint (fs : CheckpointFileState) (now : Int) :
    Option ResumeInfo × CheckpointFileState :=
  if fs.checkpointExists && fs.dataExists then
    if now - fs.checkpointMtime < 86400 then
      (some { document_data := fs.documentData
              print_settings := fs.printSettings.getD []
              completed_copies := fs.completedCopies.getD 0 }, fs)
    else (none, fs)
  else (none, fs)

/-- `_cleanup_job_checkpoint`: remove both files (run only after a
successful print). -/
def cleanup_job_checkpoint (fs : CheckpointFileState) : CheckpointFileState :=
  { fs with checkpointExists := false, dataExists := false }

/-! ## PrintExecutor: per-copy success aggregation of the PDF backends -/

/-- Number of successful copies out of `copies` attempts, where
`copyOk i` tells whether the `i`-th subprocess invocation succeeded
(returncode 0). -/
def successCount (copies : Nat) (copyOk : Nat → Bool) : Nat :=
  ((List.range copies).filter copyOk).length

/-- The SumatraPDF block of `_secure_print_pdf`: send each copy; return
`True` when all copies succeeded, `True` again on partial success
(`success_count > 0`), and fall through to the fallbacks (`none`)
otherwise. -/
def sumatraVerdict (copies : Nat) (copyOk : Nat → Bool) : Option Bool :=
  let sc := successCount copies copyOk
  if sc = copies then some true
  else if 0 < sc then some true
  else none

/-- `_try_windows_pdf_print`: `True` when all copies succeeded, `True`
on partial success, `False` when none did. -/
def try_windows_pdf_print (copies : Nat) (copyOk : Nat → Bool) : Bool :=
  let sc := successCount copies copyOk
  if sc = copies then true
  else if 0 < sc then true
  else false

/-- `_try_adobe_print`'s overall-success check: `True` when all copies
succeeded; on partial success, `True` iff at least `copies // 2` copies
succeeded; `False` when none did. -/
def try_adobe_print (copies : Nat) (copyOk : Nat → Bool) : Bool :=
  let sc := successCount copies copyOk
  if sc = copies then true
  else if 0 < sc then decide (copies / 2 ≤ sc)
  else false

/-- The backend chain of `_secure_print_pdf` for a PDF job: the Sumatra
block when the executable is installed, then the PowerShell fallback,
then the Windows-default fallback, then Adobe as last resort. -/
def secure_print_pdf (sumatraFound : Bool) (copies : Nat)
    (sumatraOk : Nat → Bool) (powershellOk : Bool)
    (windowsOk : Nat → Bool) (adobeOk : Nat → Bool) : Bool :=
  let fallback :=
    if powershellOk then true
    else if try_windows_pdf_print copies windowsOk then true
    else if try_adobe_print copies adobeOk then true
    else false
  if sumatraFound then
    match sumatraVerdict copies sumatraOk with
    | some b => b
    | none => fallback
  else fallback

/-! ## Concrete sample states for witnesses and counterexamples -/

/-- An initial client state: fresh queues, empty processed set. -/
def st0 : ClientState :=
  { print_queue := PrintJobQueue.empty
    failed_jobs_queue := PrintJobQueue.empty
    processed_jobs := []
    vendor_id := "vendor-1"
    total_received := 0
    total_failed := 0 }

/-- A sample inbound descriptor whose metadata status is `'no'`. -/
def dNo : JobDescriptor :=
  { filename := some "a.pdf"
    download_url := some "http://x/a.pdf"
    metadata := some [("status", "no"), ("copies", "2")]
    service_type := some "regular" }

/-- A sample inbound descriptor whose metadata status is `'yes'`. -/
def dYes : JobDescriptor :=
  { filename := some "b.pdf"
    download_url := some "http://x/b.pdf"
    metadata := some [("status", "yes")]
    service_type := some "regular" }

/-- One failed-completion round at the concrete failing input: run
`handle_job_completion` with `success = False` on a fresh state and
return the node it enqueued on the priority retry queue (if any) — the
node the dispatcher would hand to the next attempt. -/
def failRound (j : PrintJobNode) : Option PrintJobNode :=
  (handle_job_completion st0 j false false false 0 none).state.failed_jobs_queue.items.head?

/-- Iterate `failRound`: the surviving retry node after `n` consecutive
failed attempts. -/
def failRoundIter : Nat → Option PrintJobNode → Option PrintJobNode
  | 0, oj => oj
  | n + 1, oj =>
    match oj with
    | none => none
    | some j => failRoundIter n (failRound j)

/-- An empty printer registry. -/
def pm0 : PrinterManagerState :=
  { max_printers := 10, printers := [], printer_status := []
    printer_jobs := [] }

/-- A registry in which the printer `"HP One"` is registered and marked
busy. -/
def pmBusy : PrinterManagerState :=
  { max_printers := 10
    printers := [("HP One", ⟨0, 0⟩)]
    printer_status := [("HP One", "busy")]
    printer_jobs := [("HP One", none)] }

/-- A probe under which every printer reports hardware status 0. -/
def probe0 : String → Option Nat := fun _ => some 0

/-- A checkpoint whose files both exist with modification time 0. -/
def fsStale : CheckpointFileState :=
  { checkpointExists := true, dataExists := true, checkpointMtime := 0
    printSettings := some [("copies", "2")], completedCopies := some 1
    documentData := [37, 80, 68, 70] }

/-- A client state with one job in each queue. -/
def stB : ClientState :=
  { print_queue := { items := [jB], size := 1 }
    failed_jobs_queue := { items := [jA], size := 1 }
    processed_jobs := []
    vendor_id := "vendor-1"
    total_received := 2
    total_failed := 0 }

/-! ## Lemmas about the queue -/

theorem removeFromList_found_iff (l : List PrintJobNode) (fn : String) :
    (PrintJobQueue.removeFromList l fn).2 = true ↔ ∃ j ∈ l, j.filename = fn := by
  induction l with
  | nil => simp [PrintJobQueue.removeFromList]
  | cons j rest ih =>
    by_cases h : j.filename = fn
    · simp [PrintJobQueue.removeFromList, h]
    · simp only [PrintJobQueue.removeFromList, if_neg h]
      constructor
      · intro hf
        obtain ⟨k, hk, hkf⟩ := ih.mp hf
        exact ⟨k, List.mem_cons_of_mem _ hk, hkf⟩
      · rintro ⟨k, hk, hkf⟩
        rcases List.mem_cons.mp hk with hkj | hkr
        · exact absurd (hkj ▸ hkf) h
        · exact ih.mpr ⟨k, hkr, hkf⟩

theorem removeFromList_skips_prefix (fn : String) (pre : List PrintJobNode)
    (j : PrintJobNode) (post : List PrintJobNode)
    (hpre : ∀ k ∈ pre, k.filename ≠ fn) (hj : j.filename = fn) :
    PrintJobQueue.removeFromList (pre ++ j :: post) fn = (pre ++ post, true) := by
  induction pre with
  | nil => simp [PrintJobQueue.removeFromList, hj]
  | cons k pre ih =>
    have hk : k.filename ≠ fn := hpre k (List.mem_cons_self _ _)
    have ih' := ih (fun m hm => hpre m (List.mem_cons_of_mem _ hm))
    rw [List.cons_append]
    simp only [PrintJobQueue.removeFromList, if_neg hk, ih', List.cons_append]

theorem length_removeFromList (l : List PrintJobNode) (fn : String)
    (h : (PrintJobQueue.removeFromList l fn).2 = true) :
    (PrintJobQueue.removeFromList l fn).1.length + 1 = l.length := by
  induction l with
  | nil => simp [PrintJobQueue.removeFromList] at h
  | cons j rest ih =>
    by_cases hj : j.filename = fn
    · simp [PrintJobQueue.removeFromList, hj]
    · simp only [PrintJobQueue.removeFromList, if_neg hj] at h ⊢
      simp only [List.length_cons]
      have := ih h
      omega

theorem wf_empty : PrintJobQueue.empty.Wf := rfl

theorem wf_enqueue (q : PrintJobQueue) (j : PrintJobNode) (h : q.Wf) :
    (q.enqueue j).Wf := by
  simp [PrintJobQueue.Wf, PrintJobQueue.enqueue] at h ⊢
  omega

theorem wf_dequeue (q : PrintJobQueue) (h : q.Wf) : (q.dequeue).2.Wf := by
  cases hq : q.items with
  | nil => simpa [PrintJobQueue.dequeue, hq] using h
  | cons j rest =>
    simp [PrintJobQueue.Wf, hq] at h
    simp [PrintJobQueue.dequeue, hq, PrintJobQueue.Wf, h]

theorem wf_remove (q : PrintJobQueue) (fn : String) (h : q.Wf) :
    (q.remove_by_filename fn).1.Wf := by
  unfold PrintJobQueue.remove_by_filename
  cases hf : (PrintJobQueue.removeFromList q.items fn).2 with
  | false => simpa [hf] using h
  | true =>
    have hl := length_removeFromList q.items fn hf
    simp [hf, PrintJobQueue.Wf]
    simp [PrintJobQueue.Wf] at h
    omega

theorem wf_runOps (ops : List QueueOp) : (runOps ops).Wf := by
  suffices h : ∀ (ops : List QueueOp) (q : PrintJobQueue), q.Wf →
      (ops.foldl applyOp q).Wf by
    exact h ops PrintJobQueue.empty wf_empty
  intro ops
  induction ops with
  | nil => intro q h; exact h
  | cons op rest ih =>
    intro q h
    refine ih _ ?_
    cases op with
    | enq j => exact wf_enqueue q j h
    | deq => exact wf_dequeue q h
    | rm fn => exact wf_remove q fn h

theorem foldl_enqueue_items :
    ∀ (js : List PrintJobNode) (q : PrintJobQueue),
      (js.foldl PrintJobQueue.enqueue q).items = q.items ++ js := by
  intro js
  induction js with
  | nil => intro q; simp
  | cons j rest ih =>
    intro q
    simp [ih, PrintJobQueue.enqueue]

theorem enqueueAll_items (js : List PrintJobNode) :
    (enqueueAll js).items = js := by
  simpa using foldl_enqueue_items js PrintJobQueue.empty

theorem dequeueList_eq_items :
    ∀ (n : Nat) (q : PrintJobQueue), q.items.length ≤ n →
      dequeueList n q = q.items := by
  intro n
  induction n with
  | zero =>
    intro q h
    have : q.items = [] := List.length_eq_zero.mp (Nat.le_zero.mp h)
    simp [dequeueList, this]
  | succ n ih =>
    intro q h
    cases hq : q.items with
    | nil => simp [dequeueList, PrintJobQueue.dequeue, hq]
    | cons j rest =>
      have : rest.length ≤ n := by
        have := h
        rw [hq] at this
        simpa using this
      simp [dequeueList, PrintJobQueue.dequeue, hq, ih ⟨rest, q.size - 1⟩ this]

/-! ## Claim C4 -/

/-- C4: the `PrintJobQueue` contract.  `enqueue` appends at the tail;
`dequeue` removes and returns the head (or `None` on the empty queue);
`peek` returns the head without removing it; `remove_by_filename`
removes the first node carrying the filename and returns `True` exactly
when one was present (`False` leaving the queue unchanged); `get_size`
equals the number of nodes held for every queue reachable by a sequence
of operations; and dequeue yields jobs in exactly FIFO enqueue order. -/
theorem C4_queue_contract :
    (∀ (q : PrintJobQueue) (j : PrintJobNode),
        (q.enqueue j).items = q.items ++ [j]) ∧
    (∀ q : PrintJobQueue, q.items = [] → q.dequeue = (none, q)) ∧
    (∀ (q : PrintJobQueue) (j : PrintJobNode) (rest : List PrintJobNode),
        q.items = j :: rest →
        (q.dequeue).1 = some j ∧ (q.dequeue).2.items = rest) ∧
    (∀ q : PrintJobQueue, q.peek = q.items.head?) ∧
    (∀ (q : PrintJobQueue) (fn : String),
        ((q.remove_by_filename fn).2 = true ↔ ∃ j ∈ q.items, j.filename = fn)) ∧
    (∀ (q : PrintJobQueue) (fn : String),
        (q.remove_by_filename fn).2 = false → (q.remove_by_filename fn).1 = q) ∧
    (∀ (q : PrintJobQueue) (fn : String) (pre : List PrintJobNode)
        (j : PrintJobNode) (post : List PrintJobNode),
        q.items = pre ++ j :: post → (∀ k ∈ pre, k.filename ≠ fn) →
        j.filename = fn →
        (q.remove_by_filename fn).1.items = pre ++ post ∧
        (q.remove_by_filename fn).2 = true) ∧
    (∀ ops : List QueueOp, (runOps ops).get_size = (runOps ops).items.length) ∧
    (∀ js : List PrintJobNode, dequeueList js.length (enqueueAll js) = js) := by
  refine ⟨?_, ?_, ?_, ?_, ?_, ?_, ?_, ?_, ?_⟩
  · intro q j; rfl
  · intro q h; simp [PrintJobQueue.dequeue, h]
  · intro q j rest h; simp [PrintJobQueue.dequeue, h]
  · intro q; rfl
  · intro q fn
    have hsnd : (q.remove_by_filename fn).2 =
        (PrintJobQueue.removeFromList q.items fn).2 := by
      unfold PrintJobQueue.remove_by_filename
      cases hf : (PrintJobQueue.removeFromList q.items fn).2 <;> simp [hf]
    rw [hsnd]
    exact removeFromList_found_iff q.items fn
  · intro q fn h
    unfold PrintJobQueue.remove_by_filename at h ⊢
    cases hf : (PrintJobQueue.removeFromList q.items fn).2 with
    | false => simp [hf]
    | true => rw [hf] at h; simp at h
  · intro q fn pre j post hq hpre hj
    have := removeFromList_skips_prefix fn pre j post hpre hj
    unfold PrintJobQueue.remove_by_filename
    rw [hq, this]
    simp
  · intro ops; exact wf_runOps ops
  · intro js
    refine dequeueList_eq_items js.length (enqueueAll js) ?_ |>.trans (enqueueAll_items js)
    simp [enqueueAll_items]

/-- Witness for C4 at a concrete queue: dequeuing `⟨[jA], 1⟩` returns
`jA` and leaves the empty chain. -/
theorem C4_queue_contract_witness :
    (({ items := [jA], size := 1 } : PrintJobQueue).dequeue).1 = some jA ∧
    (({ items := [jA], size := 1 } : PrintJobQueue).dequeue).2.items = [] := by
  have h := C4_queue_contract
  exact h.2.2.1 { items := [jA], size := 1 } jA [] rfl

/-! ## Claim C1 -/

theorem failRound_eq (j : PrintJobNode) (h : j.attempts < j.max_attempts) :
    failRound j = some { j with status := "failed" } := by
  unfold failRound handle_job_completion
  simp [h, st0, PrintJobQueue.empty, PrintJobQueue.enqueue]

/-- C1 (refuting the bounded-retry claim): `handle_job_completion` with
`success = False` enqueues the failed node on the retry queue with its
`attempts` counter unchanged — no code path increments `attempts` — so
at the concrete failing input (job `jA`, `attempts = 0`,
`max_attempts = 3`) every one of the first `n` consecutive failures
re-enqueues the job, `attempts` stays 0 forever, and the terminal
`job_failed` branch is never reached. -/
theorem C1_attempts_never_incremented :
    (∀ (st : ClientState) (j : PrintJobNode) (wp ws : Bool) (now : Int)
        (resp : Option Nat), j.attempts < j.max_attempts →
      (handle_job_completion st j false wp ws now resp).state.failed_jobs_queue.items =
        st.failed_jobs_queue.items ++ [{ j with status := "failed" }] ∧
      (handle_job_completion st j false wp ws now resp).wsMessages = []) ∧
    (∀ n : Nat, ∃ j : PrintJobNode,
      failRoundIter n (some jA) = some j ∧ j.attempts = 0 ∧
      j.max_attempts = 3) := by
  constructor
  · intro st j wp ws now resp h
    unfold handle_job_completion
    simp [h, PrintJobQueue.enqueue]
  · have key : ∀ (n : Nat) (j : PrintJobNode), j.attempts = 0 →
        j.max_attempts = 3 → ∃ j' : PrintJobNode,
        failRoundIter n (some j) = some j' ∧ j'.attempts = 0 ∧
        j'.max_attempts = 3 := by
      intro n
      induction n with
      | zero => intro j h1 h2; exact ⟨j, rfl, h1, h2⟩
      | succ n ih =>
        intro j h1 h2
        have hlt : j.attempts < j.max_attempts := by omega
        have hr := failRound_eq j hlt
        have := ih { j with status := "failed" } h1 h2
        simpa [failRoundIter, hr] using this
    intro n
    exact key n jA rfl rfl

/-- Witness for the first part of C1 at the concrete failing input:
after `jA`'s failure the retry queue holds the node with `attempts`
still 0. -/
theorem C1_attempts_never_incremented_witness :
    (handle_job_completion st0 jA false false false 0 none).state.failed_jobs_queue.items =
      [{ jA with status := "failed" }] ∧
    ({ jA with status := "failed" } : PrintJobNode).attempts = 0 := by
  have h := (C1_attempts_never_incremented.1 st0 jA false false 0 none (by decide)).1
  refine ⟨?_, by decide⟩
  simpa [st0, PrintJobQueue.empty] using h

/-! ## Claim C2 -/

/-- C2 counterexample: the same descriptor `dNo` delivered in two
separate `print_job` messages is enqueued twice — `handle_new_print_job`
never adds the filename to the handled set, so the second arrival is
not suppressed, refuting "a duplicate descriptor arriving twice …
results in exactly one enqueued job record". -/
theorem C2_counterexample_duplicate_messages :
    (handle_new_print_job (handle_new_print_job st0 dNo) dNo).print_queue.items =
      [mkJobNode dNo, mkJobNode dNo] ∧
    (handle_new_print_job (handle_new_print_job st0 dNo) dNo).processed_jobs = [] := by
  constructor <;> rfl

/-- C2 as amended: already-handled identities are discarded by both
paths; the single-message path enqueues exactly one `pending` record
but does not mark the identity handled (so a duplicate in a second
single message is enqueued again, as the counterexample shows); the
batch path marks each net-new filename handled as it collects it, so
the same descriptor twice in one batch yields exactly one enqueued
record. -/
theorem C2_ingestion_idempotency_amended :
    (∀ (st : ClientState) (job : JobDescriptor),
        job.filename.getD "unknown" ∈ st.processed_jobs →
        handle_new_print_job st job = st) ∧
    (∀ (st : ClientState) (job : JobDescriptor),
        job.filename.getD "unknown" ∉ st.processed_jobs →
        (handle_new_print_job st job).print_queue.items =
          st.print_queue.items ++ [mkJobNode job] ∧
        (mkJobNode job).status = "pending" ∧
        (handle_new_print_job st job).processed_jobs = st.processed_jobs) ∧
    (∀ (st : ClientState) (job : JobDescriptor),
        job.filename.getD "unknown" ∉ st.processed_jobs →
        (handle_multiple_print_jobs st [job, job]).print_queue.items =
          st.print_queue.items ++ [mkJobNode job] ∧
        job.filename.getD "unknown" ∈
          (handle_multiple_print_jobs st [job, job]).processed_jobs) ∧
    (∀ (st : ClientState) (job : JobDescriptor),
        job.filename.getD "unknown" ∈ st.processed_jobs →
        (handle_multiple_print_jobs st [job]).print_queue.items =
          st.print_queue.items) := by
  refine ⟨?_, ?_, ?_, ?_⟩
  · intro st job h
    unfold handle_new_print_job
    simp [h]
  · intro st job h
    unfold handle_new_print_job
    simp [h, PrintJobQueue.enqueue, mkJobNode]
  · intro st job h
    have hmem : job.filename.getD "unknown" ∈
        setAdd st.processed_jobs (job.filename.getD "unknown") := by
      simp [setAdd, h]
    unfold handle_multiple_print_jobs
    simp only [collectNewJobs, if_neg h, if_pos hmem]
    constructor
    · simp [PrintJobQueue.enqueue]
    · simpa using hmem
  · intro st job h
    unfold handle_multiple_print_jobs
    simp [collectNewJobs, h]

/-- Witness for C2's amended theorem: ingesting `dNo` into the fresh
state enqueues exactly one pending record; a batch with `dNo` twice
also enqueues exactly one. -/
theorem C2_ingestion_idempotency_witness :
    (handle_new_print_job st0 dNo).print_queue.items = [mkJobNode dNo] ∧
    (handle_multiple_print_jobs st0 [dNo, dNo]).print_queue.items =
      [mkJobNode dNo] := by
  have h1 := (C2_ingestion_idempotency_amended.2.1 st0 dNo (by decide)).1
  have h2 := (C2_ingestion_idempotency_amended.2.2.1 st0 dNo (by decide)).1
  constructor
  · simpa [st0, PrintJobQueue.empty] using h1
  · simpa [st0, PrintJobQueue.empty] using h2

/-! ## Claim C3 -/

/-- C3: whenever the priority failed-jobs queue is non-empty (in
particular whenever both queues are non-empty), the queue-processor
iteration takes the job from the retry queue — its head, with the
priority flag — and leaves the normal queue completely untouched. -/
theorem C3_retry_queue_drained_first :
    ∀ st : ClientState, st.failed_jobs_queue.Wf →
      st.failed_jobs_queue.items ≠ [] →
      ∃ (j : PrintJobNode) (rest : List PrintJobNode),
        st.failed_jobs_queue.items = j :: rest ∧
        (process_print_queue_step st).1 = some (j, true) ∧
        (process_print_queue_step st).2.print_queue = st.print_queue ∧
        (process_print_queue_step st).2.failed_jobs_queue.items = rest := by
  intro st hwf hne
  obtain ⟨j, rest, hitems⟩ : ∃ j rest, st.failed_jobs_queue.items = j :: rest := by
    cases h : st.failed_jobs_queue.items with
    | nil => exact absurd h hne
    | cons j rest => exact ⟨j, rest, rfl⟩
  have hsz : st.failed_jobs_queue.size = rest.length + 1 := by
    have := hwf
    unfold PrintJobQueue.Wf at this
    rw [hitems] at this
    simpa using this
  have hempty : st.failed_jobs_queue.is_empty = false := by
    simp [PrintJobQueue.is_empty, hsz]
  refine ⟨j, rest, hitems, ?_, ?_, ?_⟩ <;>
    simp [process_print_queue_step, hempty, PrintJobQueue.dequeue, hitems]

/-- Witness for C3 at the concrete state `stB` (one job in each
queue): the retry-queue job `jA` is taken, the normal queue keeps
`jB`. -/
theorem C3_retry_queue_drained_first_witness :
    (process_print_queue_step stB).1 = some (jA, true) ∧
    (process_print_queue_step stB).2.print_queue.items = [jB] := by
  obtain ⟨j, rest, hitems, htake, hpq, hfq⟩ :=
    C3_retry_queue_drained_first stB rfl (by decide)
  have h' : [jA] = j :: rest := hitems
  have hj : jA = j := by injection h'
  refine ⟨by rw [htake, hj], ?_⟩
  rw [hpq]
  rfl

/-! ## Claim C6 -/

/-- C6 counterexample: a checkpoint two days old (both files present,
`mtime = 0`, probed at `now = 172800`) is refused for resume but the
files are left exactly as they were — nothing purges them, refuting
"… and is purged" (deletion happens only in the post-success
`_cleanup_job_checkpoint`). -/
theorem C6_counterexample_stale_not_purged :
    (check_resume_checkpoint fsStale 172800).1 = none ∧
    (check_resume_checkpoint fsStale 172800).2 = fsStale ∧
    fsStale.checkpointExists = true ∧ fsStale.dataExists = true ∧
    (cleanup_job_checkpoint fsStale).checkpointExists = false := by
  refine ⟨by decide, by decide, rfl, rfl, rfl⟩

/-- C6 as amended: the resume check returns a record exactly when both
files exist and the checkpoint age is under 86400 seconds; the record
carries the stored document bytes, print settings and completed-copies
count; and in every case — stale included — the files are left
untouched (a stale checkpoint is skipped, not purged). -/
theorem C6_checkpoint_staleness_amended :
    ∀ (fs : CheckpointFileState) (now : Int),
      ((check_resume_checkpoint fs now).1.isSome ↔
        (fs.checkpointExists = true ∧ fs.dataExists = true ∧
          now - fs.checkpointMtime < 86400)) ∧
      (check_resume_checkpoint fs now).2 = fs ∧
      (∀ r : ResumeInfo, (check_resume_checkpoint fs now).1 = some r →
        r.document_data = fs.documentData ∧
        r.print_settings = fs.printSettings.getD [] ∧
        r.completed_copies = fs.completedCopies.getD 0) := by
  intro fs now
  unfold check_resume_checkpoint
  split_ifs with hex hage
  · rw [Bool.and_eq_true] at hex
    refine ⟨?_, rfl, ?_⟩
    · simp [hex.1, hex.2, hage]
    · intro r hr
      have h2 : r = { document_data := fs.documentData, print_settings := fs.printSettings.getD [], completed_copies := fs.completedCopies.getD 0 } :=
        (Option.some.inj hr).symm
      rw [h2]
      exact ⟨rfl, rfl, rfl⟩
  · rw [Bool.and_eq_true] at hex
    refine ⟨?_, rfl, fun r hr => hr.elim⟩
    simp [hage]
  · rw [Bool.and_eq_true] at hex
    refine ⟨?_, rfl, fun r hr => hr.elim⟩
    simp only [Option.isSome_none, Bool.false_eq_true, false_iff]
    tauto

/-- Witness for C6's amended theorem: the same checkpoint probed within
the window (`now = 100`) is accepted for resume, and the check leaves
the files as they were. -/
theorem C6_checkpoint_staleness_amended_witness :
    (check_resume_checkpoint fsStale 100).1.isSome = true ∧
    (check_resume_checkpoint fsStale 100).2 = fsStale := by
  have h := C6_checkpoint_staleness_amended fsStale 100
  exact ⟨h.1.mpr ⟨rfl, rfl, by decide⟩, h.2.1⟩

/-! ## Claim C7 -/

/-- C7: when the live probe finds no printer, `process_single_job_async`
re-enqueues the very same job record — every field, in particular
`attempts` and `status`, unchanged — into the queue it was taken from
(the retry queue for a priority job, the normal queue otherwise),
sleeps the fixed two seconds, and dispatches nothing. -/
theorem C7_requeue_unchanged_on_no_printer :
    ∀ (st : ClientState) (job : PrintJobNode) (priority : Bool)
      (pm : PrinterManagerState) (printers : List String)
      (probe : String → Option Nat),
      find_working_printer printers probe = none →
      ((process_single_job_async st job true pm printers probe).state.failed_jobs_queue.items =
          st.failed_jobs_queue.items ++ [job] ∧
        (process_single_job_async st job true pm printers probe).state.print_queue =
          st.print_queue) ∧
      ((process_single_job_async st job false pm printers probe).state.print_queue.items =
          st.print_queue.items ++ [job] ∧
        (process_single_job_async st job false pm printers probe).state.failed_jobs_queue =
          st.failed_jobs_queue) ∧
      (process_single_job_async st job priority pm printers probe).dispatched = none ∧
      (process_single_job_async st job priority pm printers probe).pauseSeconds = 2 := by
  intro st job priority pm printers probe h
  unfold process_single_job_async get_available_printer
  rw [h]
  simp [PrintJobQueue.enqueue]

/-- Witness for C7: with no enumerated printers, a priority job `jA` is
returned to the retry queue untouched and the pause is two seconds. -/
theorem C7_requeue_unchanged_on_no_printer_witness :
    (process_single_job_async st0 jA true pm0 [] (fun _ => none)).state.failed_jobs_queue.items =
      [jA] ∧
    (process_single_job_async st0 jA true pm0 [] (fun _ => none)).pauseSeconds = 2 := by
  have h := C7_requeue_unchanged_on_no_printer st0 jA true pm0 []
    (fun _ => none) rfl
  exact ⟨by simpa [st0, PrintJobQueue.empty] using h.1.1, h.2.2.2⟩

/-! ## Claim C8 -/

/-- C8: on a successful completion (with the live channel connected) the
handler marks the job `completed`, adds its filename to the handled set,
sends one `job_completed` notification, and attempts exactly one POST to
the status-update endpoint whose payload carries exactly
`{filename, status, vendor_id, completion_time}` — independent of the
HTTP outcome; a non-200 outcome only produces a failure log entry (no
retry, the queues untouched, and the handler — whose body is inside
`try/except` — returns normally with the job still `completed`). -/
theorem C8_success_reporting :
    ∀ (st : ClientState) (job : PrintJobNode) (wp : Bool) (now : Int)
      (resp : Option Nat),
      (handle_job_completion st job true wp true now resp).job.status =
        "completed" ∧
      job.filename ∈
        (handle_job_completion st job true wp true now resp).state.processed_jobs ∧
      (handle_job_completion st job true wp true now resp).wsMessages =
        [WsMessage.job_completed job.filename st.vendor_id] ∧
      (handle_job_completion st job true wp true now resp).httpPosts =
        [{ filename := job.filename, status := "YES", vendor_id := st.vendor_id
           completion_time := now }] ∧
      (handle_job_completion st job true wp true now resp).state.print_queue =
        st.print_queue ∧
      (handle_job_completion st job true wp true now resp).state.failed_jobs_queue =
        st.failed_jobs_queue ∧
      (∀ c : Nat, resp = some c → c ≠ 200 →
        (handle_job_completion st job true wp true now resp).r2Log =
          [R2LogEvent.httpFailure job.filename c]) ∧
      (resp = none →
        (handle_job_completion st job true wp true now resp).r2Log =
          [R2LogEvent.requestError]) := by
  intro st job wp now resp
  have hmem : job.filename ∈ setAdd st.processed_jobs job.filename := by
    unfold setAdd
    split_ifs with h
    · exact h
    · simp
  refine ⟨rfl, hmem, rfl, rfl, rfl, rfl, ?_, ?_⟩
  · intro c hcr hne
    subst hcr
    have hcb : (c == 200) = false := beq_eq_false_iff_ne.mpr hne
    simp [handle_job_completion, update_r2_job_status, hcb]
  · intro h
    subst h
    rfl

/-- Witness for C8 at a concrete input: completing `jA` with a 500
response yields the completed status, the single exact-field POST, and
the logged (unretried) failure. -/
theorem C8_success_reporting_witness :
    (handle_job_completion st0 jA true false true 7 (some 500)).job.status =
      "completed" ∧
    (handle_job_completion st0 jA true false true 7 (some 500)).httpPosts =
      [{ filename := "a.pdf", status := "YES", vendor_id := "vendor-1"
         completion_time := 7 }] ∧
    (handle_job_completion st0 jA true false true 7 (some 500)).r2Log =
      [R2LogEvent.httpFailure "a.pdf" 500] := by
  have h := C8_success_reporting st0 jA false 7 (some 500)
  exact ⟨h.1, h.2.2.2.1, h.2.2.2.2.2.2.1 500 rfl (by decide)⟩

/-! ## Claim C9 -/

theorem collectNewJobs_sources :
    ∀ (jobs : List JobDescriptor) (processed : List String)
      (node : PrintJobNode), node ∈ (collectNewJobs jobs processed).1 →
      ∃ d ∈ jobs, node = mkJobNode d := by
  intro jobs
  induction jobs with
  | nil => intro processed node h; simp [collectNewJobs] at h
  | cons d rest ih =>
    intro processed node h
    by_cases hd : d.filename.getD "unknown" ∈ processed
    · simp only [collectNewJobs, if_pos hd] at h
      obtain ⟨e, he, hne⟩ := ih processed node h
      exact ⟨e, List.mem_cons_of_mem _ he, hne⟩
    · simp only [collectNewJobs, if_neg hd, List.mem_cons] at h
      rcases h with h | h
      · exact ⟨d, List.mem_cons_self _ _, h⟩
      · obtain ⟨e, he, hne⟩ := ih _ node h
        exact ⟨e, List.mem_cons_of_mem _ he, hne⟩

theorem handle_multiple_items (st : ClientState) (jobs : List JobDescriptor) :
    (handle_multiple_print_jobs st jobs).print_queue.items =
      st.print_queue.items ++ (collectNewJobs jobs st.processed_jobs).1 := by
  unfold handle_multiple_print_jobs
  split_ifs with h
  · simp [foldl_enqueue_items]
  · simp at h
    simp [h]

/-- C9: ingestion is gated on the metadata `status` field being exactly
the string `'no'`.  A `print_job` whose descriptor has any other status
(or none) leaves the client state untouched even if its filename was
never seen; one with status `'no'` is handed to the ingestion handler;
and every record a `print_jobs_response` batch adds to the normal queue
comes from a descriptor whose metadata status is `'no'`. -/
theorem C9_status_no_gatekeeping :
    ∀ (st : ClientState) (data : InboundData) (job : JobDescriptor),
      (data.type_ = some "print_job" → data.job = some job →
        dictGet (job.metadata.getD []) "status" ≠ some "no" →
        on_message st data = st) ∧
      (data.type_ = some "print_job" → data.job = some job →
        dictGet (job.metadata.getD []) "status" = some "no" →
        on_message st data = handle_new_print_job st job) ∧
      (data.type_ = some "print_jobs_response" →
        ∀ node ∈ (on_message st data).print_queue.items,
          node ∈ st.print_queue.items ∨
          ∃ d ∈ data.jobs,
            dictGet (d.metadata.getD []) "status" = some "no" ∧
            node = mkJobNode d) := by
  intro st data job
  refine ⟨?_, ?_, ?_⟩
  · intro h1 h2 h3
    simp [on_message, h1, h2, h3]
  · intro h1 h2 h3
    simp [on_message, h1, h2, h3]
  · intro h1 node hnode
    by_cases hjobs : data.jobs = []
    · have heq : on_message st data = st := by
        simp [on_message, h1, hjobs]
      rw [heq] at hnode
      exact Or.inl hnode
    · by_cases hp : data.jobs.filter
          (fun j => dictGet (j.metadata.getD []) "status" == some "no") = []
      · have heq : on_message st data = st := by
          simp [on_message, h1, hjobs, hp]
        rw [heq] at hnode
        exact Or.inl hnode
      · have heq : on_message st data = handle_multiple_print_jobs st
            (data.jobs.filter
              (fun j => dictGet (j.metadata.getD []) "status" == some "no")) := by
          simp [on_message, h1, hjobs, hp]
        rw [heq, handle_multiple_items] at hnode
        rcases List.mem_append.mp hnode with h | h
        · exact Or.inl h
        · obtain ⟨d, hd, hnd⟩ := collectNewJobs_sources _ _ _ h
          rw [List.mem_filter] at hd
          exact Or.inr ⟨d, hd.1, by simpa using hd.2, hnd⟩

/-- Witness for C9 at concrete inputs: a never-seen descriptor with
status `'yes'` is dropped, the same-shaped one with `'no'` is
ingested. -/
theorem C9_status_no_gatekeeping_witness :
    on_message st0 { type_ := some "print_job", job := some dYes, jobs := [] } =
      st0 ∧
    on_message st0 { type_ := some "print_job", job := some dNo, jobs := [] } =
      handle_new_print_job st0 dNo := by
  constructor
  · exact (C9_status_no_gatekeeping st0
      { type_ := some "print_job", job := some dYes, jobs := [] } dYes).1
      rfl rfl (by decide)
  · exact (C9_status_no_gatekeeping st0
      { type_ := some "print_job", job := some dNo, jobs := [] } dNo).2.1
      rfl rfl (by decide)

/-! ## Claim C10 -/

/-- C10: the PDF backends report overall success on partially printed
jobs.  With SumatraPDF installed, one successful copy out of `n > 0` is
enough for `_secure_print_pdf` to return success; the Adobe fallback
returns success whenever at least half of the `n` copies succeeded; in
particular the concrete run printing 1 of 3 requested copies is
reported as a success. -/
theorem C10_partial_copy_success :
    (∀ (n : Nat) (ok : Nat → Bool) (ps : Bool) (wok aok : Nat → Bool),
        0 < n → 1 ≤ successCount n ok →
        secure_print_pdf true n ok ps wok aok = true) ∧
    (∀ (n : Nat) (aok : Nat → Bool), 0 < n →
        n ≤ 2 * successCount n aok → try_adobe_print n aok = true) ∧
    (successCount 3 (fun i => i == 0) = 1 ∧
      secure_print_pdf true 3 (fun i => i == 0) false (fun _ => false)
        (fun _ => false) = true) := by
  refine ⟨?_, ?_, by decide, by decide⟩
  · intro n ok ps wok aok hn hsc
    unfold secure_print_pdf sumatraVerdict
    by_cases he : successCount n ok = n
    · simp [he]
    · have h0 : 0 < successCount n ok := by omega
      simp [he, h0]
  · intro n aok hn h2
    unfold try_adobe_print
    by_cases he : successCount n aok = n
    · simp [he]
    · have h0 : 0 < successCount n aok := by omega
      have hdiv : n / 2 ≤ successCount n aok := by omega
      simp [he, h0, hdiv]

/-- Witness for C10: a 3-copy Sumatra run with one good copy reports
success, and a 4-copy Adobe run with two good copies reports success. -/
theorem C10_partial_copy_success_witness :
    secure_print_pdf true 3 (fun i => i == 1) false (fun _ => false)
      (fun _ => false) = true ∧
    try_adobe_print 4 (fun i => i == 0 || i == 1) = true := by
  constructor
  · exact C10_partial_copy_success.1 3 (fun i => i == 1) false
      (fun _ => false) (fun _ => false) (by decide) (by decide)
  · exact C10_partial_copy_success.2.1 4 (fun i => i == 0 || i == 1)
      (by decide) (by decide)

/-! ## Claim C5 -/

theorem mem_insertByKey (a x : String) (l : List String) :
    a ∈ insertByKey x l ↔ a = x ∨ a ∈ l := by
  induction l with
  | nil => simp [insertByKey]
  | cons y ys ih =>
    unfold insertByKey
    by_cases h : pyKeyLE x y
    · simp [h]
    · simp only [Bool.not_eq_true] at h
      simp only [h, Bool.false_eq_true, if_false, List.mem_cons, ih]
      tauto

theorem mem_sortByPyKey (a : String) (l : List String) :
    a ∈ sortByPyKey l ↔ a ∈ l := by
  induction l with
  | nil => simp [sortByPyKey]
  | cons x xs ih =>
    simp only [sortByPyKey, List.foldr] at ih ⊢
    rw [mem_insertByKey, ih, List.mem_cons]

theorem find_working_printer_eq_none_iff (printers : List String)
    (probe : String → Option Nat) :
    find_working_printer printers probe = none ↔
      ∀ nm ∈ printers,
        ¬(probe nm = some 0 ∧ (isHPName nm = true ∨ isPDFName nm = false)) := by
  cases hfind : (sortByPyKey (printers.filter isHPName)).find?
      (fun n => probe n == some 0) with
  | some n =>
    have hres : find_working_printer printers probe = some n := by
      unfold find_working_printer
      rw [hfind]
    rw [hres]
    have hn := List.find?_some hfind
    have hmem := List.mem_of_find?_eq_some hfind
    rw [mem_sortByPyKey, List.mem_filter] at hmem
    constructor
    · intro h
      exact absurd h (by simp)
    · intro H
      exfalso
      exact H n hmem.1 ⟨by simpa using hn, Or.inl hmem.2⟩
  | none =>
    have hres : find_working_printer printers probe =
        (printers.filter (fun n => !isPDFName n)).find?
          (fun n => probe n == some 0) := by
      unfold find_working_printer
      rw [hfind]
    rw [hres, List.find?_eq_none]
    have h1 := List.find?_eq_none.mp hfind
    constructor
    · intro h2 nm hnm hbad
      obtain ⟨hp, hor⟩ := hbad
      rcases hor with hHP | hPDF
      · refine h1 nm ?_ (by simp [hp])
        rw [mem_sortByPyKey, List.mem_filter]
        exact ⟨hnm, hHP⟩
      · refine h2 nm (List.mem_filter.mpr ⟨hnm, by simp [hPDF]⟩) (by simp [hp])
    · intro H x hx hpx
      rw [List.mem_filter] at hx
      apply H x hx.1
      refine ⟨by simpa using hpx, Or.inr ?_⟩
      simpa using hx.2

theorem find_working_printer_some (printers : List String)
    (probe : String → Option Nat) (nm : String)
    (h : find_working_printer printers probe = some nm) :
    nm ∈ printers ∧ probe nm = some 0 := by
  cases hfind : (sortByPyKey (printers.filter isHPName)).find?
      (fun n => probe n == some 0) with
  | some n =>
    have hres : find_working_printer printers probe = some n := by
      unfold find_working_printer
      rw [hfind]
    rw [hres] at h
    have hn : n = nm := Option.some.inj h
    subst hn
    have hmem := List.mem_of_find?_eq_some hfind
    rw [mem_sortByPyKey, List.mem_filter] at hmem
    have hp := List.find?_some hfind
    exact ⟨hmem.1, by simpa using hp⟩
  | none =>
    have hres : find_working_printer printers probe =
        (printers.filter (fun n => !isPDFName n)).find?
          (fun n => probe n == some 0) := by
      unfold find_working_printer
      rw [hfind]
    rw [hres] at h
    have hmem := List.mem_of_find?_eq_some h
    rw [List.mem_filter] at hmem
    have hp := List.find?_some h
    exact ⟨hmem.1, by simpa using hp⟩

theorem lookup_map_overwrite {β : Type} (k : String) (v : β) :
    ∀ d : List (String × β), (d.lookup k).isSome = true →
      (d.map (fun kv => if kv.1 == k then (k, v) else kv)).lookup k = some v := by
  intro d
  induction d with
  | nil => intro h; simp [List.lookup] at h
  | cons kv rest ih =>
    obtain ⟨k1, v1⟩ := kv
    intro h
    by_cases hk : (k1 == k) = true
    · simp only [List.map, if_pos hk]
      simp [List.lookup]
    · have hne : k1 ≠ k := by simpa using hk
      have hk2 : (k == k1) = false := by
        rw [beq_eq_false_iff_ne]
        exact fun e => hne e.symm
      simp only [List.map, if_neg hk]
      simp only [List.lookup, hk2] at h ⊢
      exact ih h

theorem lookup_append_single {β : Type} (k : String) (v : β) :
    ∀ d : List (String × β), d.lookup k = none →
      (d ++ [(k, v)]).lookup k = some v := by
  intro d
  induction d with
  | nil => intro _; simp [List.lookup]
  | cons kv rest ih =>
    obtain ⟨k1, v1⟩ := kv
    intro h
    by_cases hk : (k == k1) = true
    · simp [List.lookup, hk] at h
    · have hk2 : (k == k1) = false := by simpa using hk
      simp only [List.cons_append, List.lookup, hk2] at h ⊢
      exact ih h

theorem lookup_dictSet {β : Type} (d : List (String × β)) (k : String) (v : β) :
    (dictSet d k v).lookup k = some v := by
  unfold dictSet
  split_ifs with h
  · exact lookup_map_overwrite k v d h
  · apply lookup_append_single
    cases hl : d.lookup k with
    | none => rfl
    | some x => rw [hl] at h; simp at h

/-- C5 counterexample: with `"HP One"` registered and marked `busy` in
the registry, and the live probe reporting hardware status 0,
`get_available_printer` returns `"HP One"` anyway — the registry's
busy/error marks are never consulted, refuting "the returned device is
never one currently marked busy or error in the registry". -/
theorem C5_counterexample_busy_printer_returned :
    (get_available_printer pmBusy ["HP One"] probe0).1 = some "HP One" ∧
    pmBusy.printer_status.lookup "HP One" = some "busy" := by
  constructor <;> decide

/-- C5 as amended: `get_available_printer` is exactly the live probe
`find_working_printer`: it returns the first enumerated printer with
hardware status 0 — preferring names containing `HP` (hard-coded, with
non-`Copy` names first), otherwise any non-`PDF` name — auto-registering
the returned printer when the registry has room (or already knows it),
and returns `None` exactly when no enumerated printer passes the probe;
the registry's idle/busy/error marks play no part (a busy device can be
returned, as the counterexample shows). -/
theorem C5_get_available_printer_amended :
    (∀ (pm : PrinterManagerState) (printers : List String)
        (probe : String → Option Nat),
        (get_available_printer pm printers probe).1 =
          find_working_printer printers probe) ∧
    (∀ (printers : List String) (probe : String → Option Nat),
        find_working_printer printers probe = none ↔
          ∀ nm ∈ printers,
            ¬(probe nm = some 0 ∧
              (isHPName nm = true ∨ isPDFName nm = false))) ∧
    (∀ (printers : List String) (probe : String → Option Nat) (nm : String),
        find_working_printer printers probe = some nm →
        nm ∈ printers ∧ probe nm = some 0) ∧
    (∀ (pm : PrinterManagerState) (printers : List String)
        (probe : String → Option Nat) (nm : String),
        (get_available_printer pm printers probe).1 = some nm →
        pm.printers.length < pm.max_printers ∨ (pm.printers.lookup nm).isSome →
        ((get_available_printer pm printers probe).2.printers.lookup nm).isSome) := by
  refine ⟨?_, find_working_printer_eq_none_iff, find_working_printer_some, ?_⟩
  · intro pm printers probe
    cases h : find_working_printer printers probe with
    | some fb =>
      have hres : get_available_printer pm printers probe =
          (if (pm.printers.lookup fb).isSome = true then (some fb, pm)
           else (some fb, (PrinterManager.add_printer pm fb).1)) := by
        unfold get_available_printer
        rw [h]
      rw [hres]
      split_ifs <;> rfl
    | none =>
      have hres : get_available_printer pm printers probe = (none, pm) := by
        unfold get_available_printer
        rw [h]
      rw [hres]
  · intro pm printers probe nm h hcap
    cases hf : find_working_printer printers probe with
    | none =>
      have hres : get_available_printer pm printers probe = (none, pm) := by
        unfold get_available_printer
        rw [hf]
      rw [hres] at h
      exact absurd h (by simp)
    | some fb =>
      have hres : get_available_printer pm printers probe =
          (if (pm.printers.lookup fb).isSome = true then (some fb, pm)
           else (some fb, (PrinterManager.add_printer pm fb).1)) := by
        unfold get_available_printer
        rw [hf]
      rw [hres] at h ⊢
      by_cases hl : (pm.printers.lookup fb).isSome = true
      · rw [if_pos hl] at h ⊢
        have hfb : fb = nm := Option.some.inj h
        rw [← hfb]
        exact hl
      · rw [if_neg hl] at h ⊢
        have hfb : fb = nm := Option.some.inj h
        subst hfb
        unfold PrinterManager.add_printer
        rcases hcap with hlt | hsome
        · rw [if_neg (by omega : ¬ pm.max_printers ≤ pm.printers.length)]
          simp [lookup_dictSet]
        · exact absurd hsome hl

/-- Witness for C5's amended theorem: the probe on the one-printer
enumeration returns `"HP One"`, which is indeed enumerated and reports
status 0. -/
theorem C5_get_available_printer_amended_witness :
    "HP One" ∈ ["HP One"] ∧ probe0 "HP One" = some 0 :=
  C5_get_available_printer_amended.2.2.1 ["HP One"] probe0 "HP One" (by decide)

end SmartPrint
